import Mathlib

/-!
Verification development for the personalization-and-exploration engine
(`ml/models/thompson.py`, `ml/models/user_profile.py`, `ml/models/RFC.py`,
`ml/api/routes.py`).

The Python code is shallowly embedded: floats become rationals (`ℚ`),
Python's decimal `round(x, n)` becomes `pyRound` (round half to even),
dictionaries become association lists or `Option`-valued maps, and the
synchronous persistence write `_save_state` / `_save_profiles` is modelled
by a `saveCount` field that each write increments.  Randomness
(`np.random.beta`) is abstracted as an injectable draw oracle; the opaque
trained LightGBM model is abstracted as an optional scoring function
(`none` models the untrained/unavailable model, for which the source
raises `ValueError("Model not trained yet!")`).
-/

/-- Round a rational to the nearest integer, ties to even — the semantics of
Python's built-in `round` on exact values. -/
def roundHalfEven (q : ℚ) : ℤ :=
  if q - (⌊q⌋ : ℚ) < 1/2 then ⌊q⌋
  else if 1/2 < q - (⌊q⌋ : ℚ) then ⌊q⌋ + 1
  else if 2 ∣ ⌊q⌋ then ⌊q⌋ else ⌊q⌋ + 1

/-- Python's `round(q, n)` on exact (rational) values. -/
def pyRound (q : ℚ) (n : ℕ) : ℚ := (roundHalfEven (q * 10 ^ n) : ℚ) / 10 ^ n

-- =============================================================
-- ml/models/thompson.py — ContextualThompsonSampling
-- =============================================================

/-- One Beta(α, β) posterior: the per-(place, bucket) bandit arm
`{'alpha': int, 'beta': int}`. -/
structure Arm where
  alpha : ℕ
  beta : ℕ
deriving DecidableEq

/-- The mutable state of `ContextualThompsonSampling`: the arm table
(`self.arms`, a dict keyed by `(place_id, context_bucket)` embedded as an
association list in insertion order) plus a count of `_save_state` calls. -/
structure BanditState where
  arms : List ((String × String) × Arm)
  saveCount : ℕ
deriving DecidableEq

/-- Dict lookup on the arm table: first entry with the given key. -/
def lookupArm : List ((String × String) × Arm) → String × String → Option Arm
  | [], _ => none
  | e :: l, k => if e.1 = k then some e.2 else lookupArm l k

namespace ContextualThompsonSampling

/-- `_get_context_bucket`: discretize (hour, category) into
`f"{time_bucket}_{category}"`. -/
def get_context_bucket (hour : ℤ) (category : String) : String :=
  (if 6 ≤ hour ∧ hour < 11 then "morning"
   else if 11 ≤ hour ∧ hour < 17 then "afternoon"
   else if 17 ≤ hour ∧ hour < 21 then "evening"
   else "night") ++ "_" ++ category

/-- The time-period part of `_get_context_bucket`. -/
def time_bucket (hour : ℤ) : String :=
  if 6 ≤ hour ∧ hour < 11 then "morning"
  else if 11 ≤ hour ∧ hour < 17 then "afternoon"
  else if 17 ≤ hour ∧ hour < 21 then "evening"
  else "night"


/-- `_get_arm`: get, or create at Beta(1,1), the arm for `(place_id, bucket)`.
Returns the arm together with the (possibly extended) state. -/
def get_arm (st : BanditState) (place_id bucket : String) : Arm × BanditState :=
  match lookupArm st.arms (place_id, bucket) with
  | some a => (a, st)
  | none => (⟨1, 1⟩, { st with arms := st.arms ++ [((place_id, bucket), ⟨1, 1⟩)] })

/-- `update`: locate/create the bucket arm, add 1 to α on reward 1 and to β
otherwise, then `_save_state` (modelled by the `saveCount` increment). -/
def update (st : BanditState) (place_id category : String) (hour : ℤ) (reward : ℕ) :
    BanditState :=
  let bucket := get_context_bucket hour category
  let pr := get_arm st place_id bucket
  let a := pr.1
  let a2 : Arm := if reward = 1 then ⟨a.alpha + 1, a.beta⟩ else ⟨a.alpha, a.beta + 1⟩
  { arms := pr.2.arms.map fun e => if e.1 = (place_id, bucket) then ((place_id, bucket), a2) else e,
    saveCount := pr.2.saveCount + 1 }

/-- The posterior mean `arm['alpha'] / (arm['alpha'] + arm['beta'])`. -/
def posterior_mean (a : Arm) : ℚ := (a.alpha : ℚ) / ((a.alpha : ℚ) + (a.beta : ℚ))

/-- The value returned by `explain` (the free-text `explanation` field is a
pure function of `context`, α and β and is omitted). -/
structure ExplainResult where
  context : String
  observations_in_context : ℤ
  expected_quality : ℚ
  uncertainty : String
deriving DecidableEq

/-- `explain`: read (creating if absent) the arm for this context and report
bucket, observation count α+β-2, rounded posterior mean, and uncertainty tier. -/
def explain (st : BanditState) (place_id category : String) (hour : ℤ) :
    ExplainResult × BanditState :=
  let bucket := get_context_bucket hour category
  let pr := get_arm st place_id bucket
  let a := pr.1
  let obs : ℤ := (a.alpha : ℤ) + (a.beta : ℤ) - 2
  (⟨bucket, obs, pyRound (posterior_mean a) 3,
    if obs < 5 then "high" else if obs < 20 then "medium" else "low"⟩, pr.2)

/-- `sample_scores`: for each (place, category) pair draw one Beta sample from
its context arm, creating missing arms on the way.  The Beta draw is the
injected oracle `draw`. -/
def sample_scores (hour : ℤ) (draw : Arm → ℚ) :
    BanditState → List (String × String) → List (String × ℚ) × BanditState
  | st, [] => ([], st)
  | st, pc :: pcs =>
      let pr := get_arm st pc.1 (get_context_bucket hour pc.2)
      let rest := sample_scores hour draw pr.2 pcs
      ((pc.1, draw pr.1) :: rest.1, rest.2)

/-- One row of `get_all_stats`. -/
structure StatsEntry where
  place_id : String
  context : String
  alpha : ℕ
  beta : ℕ
  expected_value : ℚ
  observations : ℤ
deriving DecidableEq

/-- `get_all_stats`: a read-only dump of every arm, keyed `place_id|bucket`;
the state component records that the method does not mutate `self.arms`. -/
def get_all_stats (st : BanditState) : List (String × StatsEntry) × BanditState :=
  (st.arms.map fun e =>
    (e.1.1 ++ "|" ++ e.1.2,
     ⟨e.1.1, e.1.2, e.2.alpha, e.2.beta, pyRound (posterior_mean e.2) 3,
      (e.2.alpha : ℤ) + (e.2.beta : ℤ) - 2⟩), st)

end ContextualThompsonSampling

-- =============================================================
-- ml/models/user_profile.py — user profile store
-- =============================================================

/-- A 6-dimensional user profile. -/
structure Profile where
  category_food : ℚ
  category_outdoor : ℚ
  category_entertainment : ℚ
  category_culture : ℚ
  price_sensitivity : ℚ
  adventure_level : ℚ
deriving DecidableEq

/-- `NEUTRAL_PROFILE`: every dimension 0.5. -/
def NEUTRAL_PROFILE : Profile := ⟨1/2, 1/2, 1/2, 1/2, 1/2, 1/2⟩

/-- The module-level `_profiles` dict plus a count of `_save_profiles` calls. -/
structure ProfileState where
  profiles : String → Option Profile
  saveCount : ℕ

/-- `get_profile`: neutral for a missing/empty/unknown user id, else the
stored profile.  Python's `if not user_id` is true for `None` and `""`. -/
def get_profile (st : ProfileState) (user_id : Option String) : Profile :=
  match user_id with
  | none => NEUTRAL_PROFILE
  | some u =>
      if u = "" then NEUTRAL_PROFILE
      else match st.profiles u with
        | some p => p
        | none => NEUTRAL_PROFILE

/-- `x` is an exact decimal tie for 3-decimal rounding: `x * 1000` lies exactly
halfway between two integers. -/
def DecimalTie3 (x : ℚ) : Prop := ∃ m : ℤ, x * 1000 = (m : ℚ) + 1/2

/-- The per-dimension step of `update_profile`: EMA with rate 0.1 toward
target 1.0 (nonzero reward) or 0.0, then `round(·, 3)`, then clamp to [0,1].
`pyRound` models the float `round` as exact decimal rounding: away from
decimal ties (`DecimalTie3`) the nearest 3-decimal value is unique and is what
the float program stores, while at an exact tie the program's binary double
lands on one side of the boundary and need not match the model's tie-to-even
choice — so no claim is settled at a tie input. -/
def ema_step (old : ℚ) (reward : ℕ) : ℚ :=
  max 0 (min 1 (pyRound (old * (1 - 1/10) + (if reward = 0 then 0 else 1) * (1/10)) 3))

/-- `update_profile`: no-op on a falsy user id; lazily materialize a neutral
profile; then, only if `category` is one of the four `category_*` dimensions,
apply `ema_step` to exactly that dimension and `_save_profiles`. -/
def update_profile (st : ProfileState) (user_id category : String) (reward : ℕ) :
    ProfileState :=
  if user_id = "" then st
  else
    let p := match st.profiles user_id with
      | some q => q
      | none => NEUTRAL_PROFILE
    if category = "food" then
      ⟨fun v => if v = user_id then
          some { p with category_food := ema_step p.category_food reward }
        else st.profiles v, st.saveCount + 1⟩
    else if category = "outdoor" then
      ⟨fun v => if v = user_id then
          some { p with category_outdoor := ema_step p.category_outdoor reward }
        else st.profiles v, st.saveCount + 1⟩
    else if category = "entertainment" then
      ⟨fun v => if v = user_id then
          some { p with category_entertainment := ema_step p.category_entertainment reward }
        else st.profiles v, st.saveCount + 1⟩
    else if category = "culture" then
      ⟨fun v => if v = user_id then
          some { p with category_culture := ema_step p.category_culture reward }
        else st.profiles v, st.saveCount + 1⟩
    else
      ⟨fun v => if v = user_id then some p else st.profiles v, st.saveCount⟩

/-- The EMA-with-clamp step as the spec's words state it for claim C4, with no
rounding: `new = clamp(old*0.9 + target*0.1)`.  Kept separate so that it can be
compared with the source-derived `ema_step`. -/
def ema_step_spec (old : ℚ) (reward : ℕ) : ℚ :=
  max 0 (min 1 (old * (9/10) + (if reward = 0 then 0 else 1) * (1/10)))

-- =============================================================
-- ml/models/RFC.py — LightGBMRecommender (the parts the claims use)
-- =============================================================

namespace LightGBMRecommender

/-- `weather_outdoor_score`: 0.5 for non-outdoor categories; for outdoor, the
weather table with `.get(weather, 0.5)` fallback. -/
def weather_outdoor_score (category weather : String) : ℚ :=
  if category ≠ "outdoor" then 1/2
  else if weather = "clear" then 1
  else if weather = "sunny" then 1
  else if weather = "clouds" then 7/10
  else if weather = "partly_cloudy" then 4/5
  else if weather = "overcast" then 1/2
  else if weather = "rain" then 1/10
  else if weather = "drizzle" then 1/5
  else if weather = "snow" then 1/5
  else if weather = "thunderstorm" then 0
  else 1/2

/-- `predict_scores`: raises `ValueError("Model not trained yet!")` when no
model is loaded, else annotates each activity with its model score.  The
trained LightGBM model is abstracted as the scoring oracle `model`; feature
extraction and the per-activity context are folded into that oracle. -/
def predict_scores {α : Type} (model : Option (α → ℚ)) (activities : List α) :
    Except String (List (α × ℚ)) :=
  match model with
  | none => Except.error "Model not trained yet!"
  | some f => Except.ok (activities.map fun a => (a, f a))

end LightGBMRecommender

-- =============================================================
-- ml/api/routes.py — recommend / feedback endpoints
-- =============================================================

/-- A FastAPI handler outcome: a successful JSON body or an `HTTPException`. -/
inductive ApiResult (α : Type) where
  | ok : α → ApiResult α
  | httpError : ℕ → String → ApiResult α
deriving DecidableEq

/-- A candidate in the final ranking: its position in the request's activity
list and its blended `ml_score`. -/
structure Blended where
  idx : ℕ
  ml_score : ℚ
deriving DecidableEq

/-- The blending formula of `/recommend`:
`round(0.7 * lgbm_score + 0.3 * ts_score, 4)`. -/
def blendScore (lgbm ts : ℚ) : ℚ := pyRound (7/10 * lgbm + 3/10 * ts) 4

/-- Insert into a descending-sorted list, before the first element whose score
is not larger — the element being inserted precedes later equal-score
elements, exactly the stable behaviour of Python's `list.sort(reverse=True)`. -/
def insertDesc (x : Blended) : List Blended → List Blended
  | [] => [x]
  | y :: ys => if y.ml_score ≤ x.ml_score then x :: y :: ys else y :: insertDesc x ys

/-- Stable descending sort by `ml_score`; extensionally equal to
`scored.sort(key=..., reverse=True)` because a stable sort on a fixed key is
unique. -/
def sortDesc : List Blended → List Blended
  | [] => []
  | x :: xs => insertDesc x (sortDesc xs)

/-- Tag each (lgbm_score, ts_score) pair with its position and blend it. -/
def blendTag (i : ℕ) : List (ℚ × ℚ) → List Blended
  | [] => []
  | p :: ps => ⟨i, blendScore p.1 p.2⟩ :: blendTag (i + 1) ps

/-- The ranking step of `/recommend`: blend every candidate's scores, then
re-sort descending by blended score (stable). -/
def rankCandidates (xs : List (ℚ × ℚ)) : List Blended := sortDesc (blendTag 0 xs)

/-- The `/recommend` handler: empty input short-circuits to an empty success;
an unavailable model makes `predict_scores` raise, which the handler converts
to HTTP 500; otherwise candidates are blended with the Thompson scores `ts`
and stably re-sorted. -/
def recommend {α : Type} (model : Option (α → ℚ)) (ts : α → ℚ) (activities : List α) :
    ApiResult (List Blended) :=
  match activities with
  | [] => ApiResult.ok []
  | _ :: _ =>
      match LightGBMRecommender.predict_scores model activities with
      | Except.error e => ApiResult.httpError 500 e
      | Except.ok scored => ApiResult.ok (rankCandidates (scored.map fun p => (p.2, ts p.1)))

/-- `REWARD_MAP.get(event_type)`: `click` is mapped to `None`, unknown tags
also yield `None` (the dict `.get` default). -/
def REWARD_MAP (event_type : String) : Option ℕ :=
  if event_type = "navigate" then some 1
  else if event_type = "like" then some 1
  else if event_type = "save" then some 1
  else if event_type = "click" then none
  else if event_type = "impression" then some 0
  else if event_type = "dismiss" then some 0
  else if event_type = "dislike" then some 0
  else none

/-- The process-wide mutable state touched by `/feedback`: the Thompson bandit
and the profile store. -/
structure SysState where
  bandit : BanditState
  userProfiles : ProfileState

/-- The JSON body returned by `/feedback`. -/
structure FeedbackResponse where
  event_type : String
  reward : Option ℕ
  stats : ContextualThompsonSampling.ExplainResult
  updatedProfile : Option Profile

/-- The `/feedback` handler: resolve the reward; if it is not `None`, update
the bandit and (when a truthy userId is present) the user profile; always
read back `bandit.explain` for the response (which may lazily create the
queried arm), and echo the profile when a userId is present. -/
def feedback (st : SysState) (place_id category : String) (hour : ℤ)
    (event_type : String) (userId : Option String) : FeedbackResponse × SysState :=
  let reward := REWARD_MAP event_type
  let st1 : SysState :=
    match reward with
    | some r =>
        let b := ContextualThompsonSampling.update st.bandit place_id category hour r
        let ps :=
          match userId with
          | some u => if u = "" then st.userProfiles
                      else update_profile st.userProfiles u category r
          | none => st.userProfiles
        ⟨b, ps⟩
    | none => st
  let ex := ContextualThompsonSampling.explain st1.bandit place_id category hour
  let st2 : SysState := ⟨ex.2, st1.userProfiles⟩
  let up : Option Profile :=
    match userId with
    | some u => if u = "" then none else some (get_profile st2.userProfiles (some u))
    | none => none
  (⟨event_type, reward, ex.1, up⟩, st2)

-- =============================================================
-- Lemmas about the arm table
-- =============================================================

/-- Arm-table extension order: every arm survives and neither of its counts
ever decreases. -/
def armsLE (s t : List ((String × String) × Arm)) : Prop :=
  ∀ k a, lookupArm s k = some a →
    ∃ b, lookupArm t k = some b ∧ a.alpha ≤ b.alpha ∧ a.beta ≤ b.beta

/-- The arm-table invariant: every stored arm has α ≥ 1 and β ≥ 1. -/
def ArmTableInv (s : List ((String × String) × Arm)) : Prop :=
  ∀ k a, lookupArm s k = some a → 1 ≤ a.alpha ∧ 1 ≤ a.beta


/-- The strict order the sorted output realises: strictly larger score first,
and among equal scores the earlier input position first. -/
def Plex (a b : Blended) : Prop :=
  b.ml_score < a.ml_score ∨ (a.ml_score = b.ml_score ∧ a.idx < b.idx)

/-- Iterated reward-1 feedback on one fixed (place, category, hour). -/
def update_iter (place_id category : String) (hour : ℤ) : ℕ → BanditState → BanditState
  | 0, st => st
  | k + 1, st =>
      ContextualThompsonSampling.update (update_iter place_id category hour k st)
        place_id category hour 1

theorem roundHalfEven_intCast (m : ℤ) : roundHalfEven (m : ℚ) = m := by
  unfold roundHalfEven
  rw [Int.floor_intCast]
  norm_num

theorem roundHalfEven_add_half (m : ℤ) :
    roundHalfEven ((m : ℚ) + 1/2) = if 2 ∣ m then m else m + 1 := by
  have hfl : ⌊(m : ℚ) + 1/2⌋ = m := by
    rw [add_comm, Int.floor_add_int]
    norm_num [Int.floor_eq_iff]
  unfold roundHalfEven
  rw [hfl]
  norm_num

theorem pyRound_of_mul_eq_int {q : ℚ} {n : ℕ} {m : ℤ} (h : q * 10 ^ n = (m : ℚ)) :
    pyRound q n = (m : ℚ) / 10 ^ n := by
  unfold pyRound
  rw [h, roundHalfEven_intCast]

theorem roundHalfEven_up (m : ℤ) (r : ℚ) (h1 : 1/2 < r) (h2 : r < 1) :
    roundHalfEven ((m : ℚ) + r) = m + 1 := by
  have hfl : ⌊(m : ℚ) + r⌋ = m := by
    rw [add_comm, Int.floor_add_int,
        Int.floor_eq_zero_iff.mpr (Set.mem_Ico.mpr ⟨by linarith, h2⟩)]
    omega
  unfold roundHalfEven
  rw [hfl, show (m : ℚ) + r - (m : ℚ) = r by ring, if_neg (by linarith), if_pos h1]

theorem abs_sub_roundHalfEven_lt (x : ℚ) (h : ¬ ∃ m : ℤ, x = (m : ℚ) + 1/2) :
    |x - (roundHalfEven x : ℚ)| < 1/2 := by
  have hf : ((⌊x⌋ : ℤ) : ℚ) ≤ x := Int.floor_le x
  have hf1 : x < (⌊x⌋ : ℚ) + 1 := Int.lt_floor_add_one x
  unfold roundHalfEven
  by_cases h1 : x - (⌊x⌋ : ℚ) < 1/2
  · rw [if_pos h1, abs_of_nonneg (by linarith)]
    linarith
  · by_cases h2 : 1/2 < x - (⌊x⌋ : ℚ)
    · rw [if_neg h1, if_pos h2]
      push_cast
      rw [abs_of_nonpos (by linarith)]
      linarith
    · exact absurd ⟨⌊x⌋, by linarith⟩ h

/-- Away from decimal ties, `pyRound · 3` is the unique nearest multiple of
1/1000 — exactly what the float program's `round(·, 3)` stores there. -/
theorem pyRound3_nearest (v : ℚ) (h : ¬ DecimalTie3 v) :
    (∃ m : ℤ, pyRound v 3 = (m : ℚ)/1000) ∧ |v - pyRound v 3| < 1/2000 := by
  have habs := abs_sub_roundHalfEven_lt (v * 1000) h
  constructor
  · refine ⟨roundHalfEven (v * 1000), ?_⟩
    unfold pyRound
    norm_num
  · have heq : v - pyRound v 3 =
        (v * 1000 - (roundHalfEven (v * 1000) : ℚ)) / 1000 := by
      unfold pyRound
      ring_nf
    rw [heq, abs_div, abs_of_pos (show (0 : ℚ) < 1000 by norm_num)]
    linarith

namespace ContextualThompsonSampling

theorem get_context_bucket_eq (hour : ℤ) (category : String) :
    get_context_bucket hour category = time_bucket hour ++ "_" ++ category := rfl

end ContextualThompsonSampling

theorem lookupArm_nil (k : String × String) : lookupArm [] k = none := rfl

theorem lookupArm_append_right {l : List ((String × String) × Arm)} {k : String × String}
    (h : lookupArm l k = none) (e : (String × String) × Arm) :
    lookupArm (l ++ [e]) k = lookupArm [e] k := by
  induction l with
  | nil => rfl
  | cons a l ih =>
      by_cases hk : a.1 = k
      · simp [lookupArm, hk] at h
      · simp only [lookupArm, hk, if_neg hk, List.cons_append] at h ⊢
        exact ih h

theorem lookupArm_append_left {l : List ((String × String) × Arm)} {k : String × String}
    {a : Arm} (h : lookupArm l k = some a) (e : (String × String) × Arm) :
    lookupArm (l ++ [e]) k = some a := by
  induction l with
  | nil => simp [lookupArm] at h
  | cons b l ih =>
      by_cases hk : b.1 = k
      · simp only [lookupArm, if_pos hk] at h
        simp [lookupArm, hk, h]
      · simp only [lookupArm, if_neg hk] at h
        simp only [List.cons_append, lookupArm, if_neg hk]
        exact ih h

theorem lookupArm_map_set_ne {l : List ((String × String) × Arm)} {k k0 : String × String}
    (h : k ≠ k0) (b : Arm) :
    lookupArm (l.map fun e => if e.1 = k0 then (k0, b) else e) k = lookupArm l k := by
  induction l with
  | nil => rfl
  | cons e l ih =>
      by_cases he : e.1 = k0
      · simp only [List.map_cons, if_pos he, lookupArm]
        rw [if_neg (fun hh => h hh.symm), if_neg (he ▸ fun hh : e.1 = k => h (hh ▸ he))]
        exact ih
      · simp only [List.map_cons, if_neg he, lookupArm]
        by_cases hk : e.1 = k
        · simp [hk]
        · simp only [if_neg hk]
          exact ih

theorem lookupArm_map_set_eq {l : List ((String × String) × Arm)} {k0 : String × String}
    {a : Arm} (h : lookupArm l k0 = some a) (b : Arm) :
    lookupArm (l.map fun e => if e.1 = k0 then (k0, b) else e) k0 = some b := by
  induction l with
  | nil => simp [lookupArm] at h
  | cons e l ih =>
      by_cases he : e.1 = k0
      · simp [List.map_cons, if_pos he, lookupArm]
      · simp only [lookupArm, if_neg he] at h
        simp only [List.map_cons, if_neg he, lookupArm, if_neg he]
        exact ih h

namespace ContextualThompsonSampling

theorem get_arm_lookup (st : BanditState) (p b : String) :
    lookupArm (get_arm st p b).2.arms (p, b) = some (get_arm st p b).1 := by
  unfold get_arm
  cases h : lookupArm st.arms (p, b) with
  | some a => simp [h]
  | none =>
      simp only [h]
      rw [lookupArm_append_right h]
      simp [lookupArm]

theorem get_arm_frame (st : BanditState) (p b : String) {k : String × String}
    (h : k ≠ (p, b)) : lookupArm (get_arm st p b).2.arms k = lookupArm st.arms k := by
  unfold get_arm
  cases hl : lookupArm st.arms (p, b) with
  | some a => simp [hl]
  | none =>
      simp only [hl]
      cases hk : lookupArm st.arms k with
      | some c => exact lookupArm_append_left hk _
      | none =>
          rw [lookupArm_append_right hk]
          simp only [lookupArm]
          rw [if_neg (fun hh : (p, b) = k => h hh.symm)]

theorem get_arm_saveCount (st : BanditState) (p b : String) :
    (get_arm st p b).2.saveCount = st.saveCount := by
  unfold get_arm
  cases h : lookupArm st.arms (p, b) <;> simp [h]

theorem get_arm_of_some {st : BanditState} {p b : String} {a : Arm}
    (h : lookupArm st.arms (p, b) = some a) : get_arm st p b = (a, st) := by
  unfold get_arm
  rw [h]

theorem get_arm_of_none {st : BanditState} {p b : String}
    (h : lookupArm st.arms (p, b) = none) :
    (get_arm st p b).1 = ⟨1, 1⟩ ∧
      (get_arm st p b).2 = { st with arms := st.arms ++ [((p, b), ⟨1, 1⟩)] } := by
  unfold get_arm
  rw [h]
  exact ⟨rfl, rfl⟩

theorem update_lookup_key (st : BanditState) (p c : String) (hour : ℤ) (r : ℕ) :
    lookupArm (update st p c hour r).arms (p, get_context_bucket hour c) =
      some (if r = 1 then ⟨(get_arm st p (get_context_bucket hour c)).1.alpha + 1,
                          (get_arm st p (get_context_bucket hour c)).1.beta⟩
            else ⟨(get_arm st p (get_context_bucket hour c)).1.alpha,
                  (get_arm st p (get_context_bucket hour c)).1.beta + 1⟩) := by
  unfold update
  exact lookupArm_map_set_eq (get_arm_lookup st p (get_context_bucket hour c)) _

theorem update_frame (st : BanditState) (p c : String) (hour : ℤ) (r : ℕ)
    {k : String × String} (h : k ≠ (p, get_context_bucket hour c)) :
    lookupArm (update st p c hour r).arms k = lookupArm st.arms k := by
  unfold update
  rw [lookupArm_map_set_ne h, get_arm_frame st p (get_context_bucket hour c) h]

theorem explain_state (st : BanditState) (p c : String) (hour : ℤ) :
    (explain st p c hour).2 = (get_arm st p (get_context_bucket hour c)).2 := rfl

theorem explain_result (st : BanditState) (p c : String) (hour : ℤ) :
    (explain st p c hour).1 =
      ⟨get_context_bucket hour c,
       ((get_arm st p (get_context_bucket hour c)).1.alpha : ℤ) +
         ((get_arm st p (get_context_bucket hour c)).1.beta : ℤ) - 2,
       pyRound (posterior_mean (get_arm st p (get_context_bucket hour c)).1) 3,
       if ((get_arm st p (get_context_bucket hour c)).1.alpha : ℤ) +
            ((get_arm st p (get_context_bucket hour c)).1.beta : ℤ) - 2 < 5 then "high"
       else if ((get_arm st p (get_context_bucket hour c)).1.alpha : ℤ) +
            ((get_arm st p (get_context_bucket hour c)).1.beta : ℤ) - 2 < 20 then "medium"
       else "low"⟩ := rfl

end ContextualThompsonSampling

theorem armsLE_refl (s : List ((String × String) × Arm)) : armsLE s s :=
  fun _ a h => ⟨a, h, le_refl _, le_refl _⟩

theorem armsLE_trans {s t u : List ((String × String) × Arm)}
    (h1 : armsLE s t) (h2 : armsLE t u) : armsLE s u := by
  intro k a ha
  obtain ⟨b, hb, hab1, hab2⟩ := h1 k a ha
  obtain ⟨c, hc, hbc1, hbc2⟩ := h2 k b hb
  exact ⟨c, hc, le_trans hab1 hbc1, le_trans hab2 hbc2⟩

theorem lookupArm_append_cases {l : List ((String × String) × Arm)}
    {e : (String × String) × Arm} {k : String × String} {a : Arm}
    (h : lookupArm (l ++ [e]) k = some a) : lookupArm l k = some a ∨ a = e.2 := by
  induction l with
  | nil =>
      simp only [List.nil_append, lookupArm] at h
      by_cases hk : e.1 = k
      · rw [if_pos hk] at h
        exact Or.inr (Option.some.inj h).symm
      · rw [if_neg hk] at h
        exact absurd h (by simp [lookupArm])
  | cons b l ih =>
      by_cases hk : b.1 = k
      · simp only [List.cons_append, lookupArm, if_pos hk] at h ⊢
        exact Or.inl h
      · simp only [List.cons_append, lookupArm, if_neg hk] at h ⊢
        exact ih h

namespace ContextualThompsonSampling

theorem get_arm_armsLE (st : BanditState) (p b : String) :
    armsLE st.arms (get_arm st p b).2.arms := by
  intro k a ha
  refine ⟨a, ?_, le_refl _, le_refl _⟩
  unfold get_arm
  cases hl : lookupArm st.arms (p, b) with
  | some c => simpa using ha
  | none => exact lookupArm_append_left ha _

theorem get_arm_inv {st : BanditState} (hinv : ArmTableInv st.arms) (p b : String) :
    ArmTableInv (get_arm st p b).2.arms := by
  intro k a ha
  unfold get_arm at ha
  cases hl : lookupArm st.arms (p, b) with
  | some c =>
      rw [hl] at ha
      exact hinv k a ha
  | none =>
      rw [hl] at ha
      rcases lookupArm_append_cases ha with h | h
      · exact hinv k a h
      · rw [h]
        exact ⟨le_refl 1, le_refl 1⟩

theorem get_arm_fst_inv {st : BanditState} (hinv : ArmTableInv st.arms) (p b : String) :
    1 ≤ (get_arm st p b).1.alpha ∧ 1 ≤ (get_arm st p b).1.beta := by
  unfold get_arm
  cases hl : lookupArm st.arms (p, b) with
  | some c => simpa using hinv (p, b) c hl
  | none => exact ⟨le_refl 1, le_refl 1⟩

theorem update_armsLE (st : BanditState) (p c : String) (hour : ℤ) (r : ℕ) :
    armsLE st.arms (update st p c hour r).arms := by
  intro k a ha
  by_cases hk : k = (p, get_context_bucket hour c)
  · subst hk
    have hget : (get_arm st p (get_context_bucket hour c)).1 = a := by
      unfold get_arm
      rw [ha]
    rw [update_lookup_key, hget]
    by_cases hr : r = 1
    · rw [if_pos hr]
      exact ⟨⟨a.alpha + 1, a.beta⟩, rfl, Nat.le_succ _, le_refl _⟩
    · rw [if_neg hr]
      exact ⟨⟨a.alpha, a.beta + 1⟩, rfl, le_refl _, Nat.le_succ _⟩
  · exact ⟨a, by rw [update_frame st p c hour r hk]; exact ha, le_refl _, le_refl _⟩

theorem update_inv {st : BanditState} (hinv : ArmTableInv st.arms)
    (p c : String) (hour : ℤ) (r : ℕ) : ArmTableInv (update st p c hour r).arms := by
  intro k a ha
  by_cases hk : k = (p, get_context_bucket hour c)
  · subst hk
    rw [update_lookup_key] at ha
    have hfst := get_arm_fst_inv hinv p (get_context_bucket hour c)
    by_cases hr : r = 1 <;> simp [hr] at ha <;> rw [← ha] <;> simp <;> omega
  · rw [update_frame st p c hour r hk] at ha
    exact hinv k a ha

theorem explain_armsLE (st : BanditState) (p c : String) (hour : ℤ) :
    armsLE st.arms (explain st p c hour).2.arms := by
  rw [explain_state]
  exact get_arm_armsLE st p (get_context_bucket hour c)

theorem explain_inv {st : BanditState} (hinv : ArmTableInv st.arms)
    (p c : String) (hour : ℤ) : ArmTableInv (explain st p c hour).2.arms := by
  rw [explain_state]
  exact get_arm_inv hinv p (get_context_bucket hour c)

theorem sample_scores_armsLE (hour : ℤ) (draw : Arm → ℚ) :
    ∀ (pcs : List (String × String)) (st : BanditState),
      armsLE st.arms (sample_scores hour draw st pcs).2.arms := by
  intro pcs
  induction pcs with
  | nil => exact fun st => armsLE_refl st.arms
  | cons pc pcs ih =>
      intro st
      exact armsLE_trans (get_arm_armsLE st pc.1 (get_context_bucket hour pc.2))
        (ih (get_arm st pc.1 (get_context_bucket hour pc.2)).2)

theorem sample_scores_inv (hour : ℤ) (draw : Arm → ℚ) :
    ∀ (pcs : List (String × String)) (st : BanditState), ArmTableInv st.arms →
      ArmTableInv (sample_scores hour draw st pcs).2.arms := by
  intro pcs
  induction pcs with
  | nil => exact fun st h => h
  | cons pc pcs ih =>
      intro st hinv
      exact ih (get_arm st pc.1 (get_context_bucket hour pc.2)).2
        (get_arm_inv hinv pc.1 (get_context_bucket hour pc.2))

theorem sample_scores_saveCount (hour : ℤ) (draw : Arm → ℚ) :
    ∀ (pcs : List (String × String)) (st : BanditState),
      (sample_scores hour draw st pcs).2.saveCount = st.saveCount := by
  intro pcs
  induction pcs with
  | nil => intro st; rfl
  | cons pc pcs ih =>
      intro st
      rw [sample_scores, ih, get_arm_saveCount]

end ContextualThompsonSampling

-- =============================================================
-- Lemmas about the stable descending sort of /recommend

theorem insertDesc_perm (x : Blended) (l : List Blended) :
    (insertDesc x l).Perm (x :: l) := by
  induction l with
  | nil => exact List.Perm.refl _
  | cons y ys ih =>
      by_cases h : y.ml_score ≤ x.ml_score
      · rw [insertDesc, if_pos h]
      · rw [insertDesc, if_neg h]
        exact (ih.cons y).trans (List.Perm.swap x y ys)

theorem sortDesc_perm (l : List Blended) : (sortDesc l).Perm l := by
  induction l with
  | nil => exact List.Perm.refl _
  | cons x xs ih => exact (insertDesc_perm x (sortDesc xs)).trans (ih.cons x)

theorem insertDesc_pairwise {x : Blended} {l : List Blended}
    (hp : l.Pairwise Plex) (hx : ∀ y ∈ l, x.idx < y.idx) :
    (insertDesc x l).Pairwise Plex := by
  induction l with
  | nil => simp [insertDesc]
  | cons y ys ih =>
      rcases List.pairwise_cons.mp hp with ⟨hy, hys⟩
      by_cases h : y.ml_score ≤ x.ml_score
      · rw [insertDesc, if_pos h]
        refine List.pairwise_cons.mpr ⟨?_, hp⟩
        intro z hz
        rcases List.mem_cons.mp hz with rfl | hz2
        · rcases lt_or_eq_of_le h with hlt | heq
          · exact Or.inl hlt
          · exact Or.inr ⟨heq.symm, hx z (List.mem_cons_self _ _)⟩
        · rcases hy z hz2 with hlt | ⟨heq, _⟩
          · exact Or.inl (lt_of_lt_of_le hlt h)
          · rcases lt_or_eq_of_le h with hlt2 | heq2
            · exact Or.inl (heq ▸ hlt2)
            · exact Or.inr ⟨heq2.symm.trans heq, hx z (List.mem_cons_of_mem _ hz2)⟩
      · rw [insertDesc, if_neg h]
        push_neg at h
        refine List.pairwise_cons.mpr
          ⟨?_, ih hys fun z hz => hx z (List.mem_cons_of_mem _ hz)⟩
        intro z hz
        rcases List.mem_cons.mp ((insertDesc_perm x ys).mem_iff.mp hz) with rfl | hz2
        · exact Or.inl h
        · exact hy z hz2

theorem sortDesc_pairwise {l : List Blended}
    (h : l.Pairwise fun a b => a.idx < b.idx) : (sortDesc l).Pairwise Plex := by
  induction l with
  | nil => exact List.Pairwise.nil
  | cons x xs ih =>
      rcases List.pairwise_cons.mp h with ⟨hx, hxs⟩
      show (insertDesc x (sortDesc xs)).Pairwise Plex
      exact insertDesc_pairwise (ih hxs) fun y hy => hx y ((sortDesc_perm xs).mem_iff.mp hy)

theorem blendTag_idx_ge :
    ∀ (ps : List (ℚ × ℚ)) (i : ℕ) (y : Blended), y ∈ blendTag i ps → i ≤ y.idx := by
  intro ps
  induction ps with
  | nil => intro i y hy; simp [blendTag] at hy
  | cons p ps ih =>
      intro i y hy
      rcases List.mem_cons.mp hy with rfl | hy2
      · exact le_refl _
      · exact le_trans (Nat.le_succ i) (ih (i + 1) y hy2)

theorem blendTag_pairwise (ps : List (ℚ × ℚ)) (i : ℕ) :
    (blendTag i ps).Pairwise fun a b => a.idx < b.idx := by
  induction ps generalizing i with
  | nil => exact List.Pairwise.nil
  | cons p ps ih =>
      refine List.pairwise_cons.mpr ⟨?_, ih (i + 1)⟩
      intro y hy
      exact lt_of_lt_of_le (Nat.lt_succ_self i) (blendTag_idx_ge ps (i + 1) y hy)

theorem blendTag_eq_enumFrom :
    ∀ (ps : List (ℚ × ℚ)) (i : ℕ),
      blendTag i ps = (List.enumFrom i ps).map
        fun p => ⟨p.1, pyRound (7/10 * p.2.1 + 3/10 * p.2.2) 4⟩ := by
  intro ps
  induction ps with
  | nil => intro i; rfl
  | cons p ps ih =>
      intro i
      simp only [blendTag, List.enumFrom, List.map_cons, ih (i + 1)]
      rfl

namespace ContextualThompsonSampling

theorem get_context_bucket_ne {h1 h2 : ℤ} (c : String)
    (hne : time_bucket h1 ≠ time_bucket h2) :
    get_context_bucket h1 c ≠ get_context_bucket h2 c := by
  intro hc
  apply hne
  rw [get_context_bucket_eq, get_context_bucket_eq] at hc
  have hd := congrArg String.data hc
  simp only [String.data_append] at hd
  exact String.ext (List.append_cancel_right (List.append_cancel_right hd))

end ContextualThompsonSampling

open ContextualThompsonSampling in
/-- Helper: `_get_arm` never changes the value of an arm that already exists. -/
theorem get_arm_preserves_some {st : BanditState} {k : String × String} {a : Arm}
    (p b : String) (h : lookupArm st.arms k = some a) :
    lookupArm (ContextualThompsonSampling.get_arm st p b).2.arms k = some a := by
  unfold ContextualThompsonSampling.get_arm
  cases hl : lookupArm st.arms (p, b) with
  | some c => simpa using h
  | none => exact lookupArm_append_left h _

-- =============================================================
-- Claim theorems
-- =============================================================

/-- C1: in `/recommend`, every candidate's blended score is
`round(0.7*oracleScore + 0.3*banditScore, 4)` (so blend(0.8, 0.2) = 0.62), and
the final output is the blended input sorted in descending order of blended
score by a stable sort: any two candidates with equal blended scores keep
their original input order. -/
theorem recommend_blend_round_and_stable_sort :
    blendScore (4/5) (1/5) = 31/50 ∧
    ∀ xs : List (ℚ × ℚ),
      blendTag 0 xs = xs.enum.map
        (fun p => ⟨p.1, pyRound (7/10 * p.2.1 + 3/10 * p.2.2) 4⟩) ∧
      (rankCandidates xs).Perm (blendTag 0 xs) ∧
      (rankCandidates xs).Pairwise (fun a b => b.ml_score ≤ a.ml_score) ∧
      (rankCandidates xs).Pairwise (fun a b => a.ml_score = b.ml_score → a.idx < b.idx) := by
  constructor
  · unfold blendScore
    rw [pyRound_of_mul_eq_int
      (show (7/10 * (4/5 : ℚ) + 3/10 * (1/5)) * 10 ^ 4 = ((6200 : ℤ) : ℚ) by norm_num)]
    norm_num
  · intro xs
    have hplex := sortDesc_pairwise (blendTag_pairwise xs 0)
    refine ⟨?_, sortDesc_perm _, ?_, ?_⟩
    · rw [blendTag_eq_enumFrom]
      rfl
    · refine hplex.imp ?_
      intro a b hab
      rcases hab with hlt | ⟨heq, _⟩
      · exact le_of_lt hlt
      · exact le_of_eq heq.symm
    · refine hplex.imp ?_
      intro a b hab
      rcases hab with hlt | ⟨_, hidx⟩
      · intro heq
        exact absurd hlt (by rw [heq]; exact lt_irrefl _)
      · intro _
        exact hidx

/-- C9 counterexample: the claim says the weather table gives rain 0.2 for an
outdoor candidate, but the source table has `'rain': 0.1`. -/
theorem weather_rain_counterexample :
    LightGBMRecommender.weather_outdoor_score "outdoor" "rain" = 1/10 ∧
    ((1 : ℚ)/10) ≠ 1/5 := by
  constructor
  · rfl
  · norm_num

/-- C9 (amended): `weatherOutdoorMatch` is 0.5 for every non-outdoor category;
for an outdoor candidate it equals the table value — clear/sunny 1.0,
clouds 0.7, partly_cloudy 0.8, overcast 0.5, rain 0.1, drizzle 0.2, snow 0.2,
thunderstorm 0.0 — and 0.5 for any unknown weather value. -/
theorem weather_outdoor_table :
    (∀ category weather, category ≠ "outdoor" →
        LightGBMRecommender.weather_outdoor_score category weather = 1/2) ∧
    LightGBMRecommender.weather_outdoor_score "outdoor" "clear" = 1 ∧
    LightGBMRecommender.weather_outdoor_score "outdoor" "sunny" = 1 ∧
    LightGBMRecommender.weather_outdoor_score "outdoor" "clouds" = 7/10 ∧
    LightGBMRecommender.weather_outdoor_score "outdoor" "partly_cloudy" = 4/5 ∧
    LightGBMRecommender.weather_outdoor_score "outdoor" "overcast" = 1/2 ∧
    LightGBMRecommender.weather_outdoor_score "outdoor" "rain" = 1/10 ∧
    LightGBMRecommender.weather_outdoor_score "outdoor" "drizzle" = 1/5 ∧
    LightGBMRecommender.weather_outdoor_score "outdoor" "snow" = 1/5 ∧
    LightGBMRecommender.weather_outdoor_score "outdoor" "thunderstorm" = 0 ∧
    (∀ weather,
        weather ∉ (["clear", "sunny", "clouds", "partly_cloudy", "overcast", "rain",
          "drizzle", "snow", "thunderstorm"] : List String) →
        LightGBMRecommender.weather_outdoor_score "outdoor" weather = 1/2) := by
  refine ⟨?_, rfl, rfl, rfl, rfl, rfl, rfl, rfl, rfl, rfl, ?_⟩
  · intro category weather hc
    unfold LightGBMRecommender.weather_outdoor_score
    rw [if_pos hc]
  · intro weather hw
    simp only [List.mem_cons, not_or] at hw
    obtain ⟨h1, h2, h3, h4, h5, h6, h7, h8, h9, _⟩ := hw
    unfold LightGBMRecommender.weather_outdoor_score
    simp [h1, h2, h3, h4, h5, h6, h7, h8, h9]

/-- C9 witness: the amended table theorem evaluated at a non-outdoor category
and at an unknown weather value. -/
theorem weather_outdoor_table_witness :
    LightGBMRecommender.weather_outdoor_score "food" "rain" = 1/2 ∧
    LightGBMRecommender.weather_outdoor_score "outdoor" "foggy" = 1/2 :=
  ⟨weather_outdoor_table.1 "food" "rain" (by decide),
   weather_outdoor_table.2.2.2.2.2.2.2.2.2.2 "foggy" (by decide)⟩

/-- C3 counterexample: with no model loaded and a nonempty candidate list,
`/recommend` answers HTTP 500 — there is no degraded bandit-only success
response and no degraded-mode flag. -/
theorem oracle_unavailable_counterexample :
    recommend (none : Option (Unit → ℚ)) (fun _ => 1/2) [()] =
      ApiResult.httpError 500 "Model not trained yet!" ∧
    ¬ ∃ l, recommend (none : Option (Unit → ℚ)) (fun _ => 1/2) [()] = ApiResult.ok l := by
  constructor
  · rfl
  · rintro ⟨l, hl⟩
    rw [show recommend (none : Option (Unit → ℚ)) (fun _ => 1/2) [()] =
        ApiResult.httpError 500 "Model not trained yet!" from rfl] at hl
    exact ApiResult.noConfusion hl

/-- C3 (amended): if the relevance oracle cannot produce a score
(`model is None`, so `predict_scores` raises `ValueError`), `/recommend` with a
nonempty candidate list aborts with HTTP 500 "Model not trained yet!" instead
of degrading to bandit-only scores. -/
theorem oracle_unavailable_http500 {α : Type} (ts : α → ℚ) (activities : List α)
    (h : activities ≠ []) :
    recommend (none : Option (α → ℚ)) ts activities =
      ApiResult.httpError 500 "Model not trained yet!" := by
  cases activities with
  | nil => exact absurd rfl h
  | cons a as => rfl

/-- C3 witness: the amended theorem at a concrete one-candidate request. -/
theorem oracle_unavailable_http500_witness :
    ([()] : List Unit) ≠ [] ∧
    recommend (none : Option (Unit → ℚ)) (fun _ => 1/2) [()] =
      ApiResult.httpError 500 "Model not trained yet!" :=
  ⟨by simp, oracle_unavailable_http500 (fun _ => 1/2) [()] (by simp)⟩

/-- C4 counterexample: the claim's formula omits the `round(·, 3)` the source
applies before clamping.  From `category_food = 0.123`, a reward-1 update
stores `round(0.2107, 3) = 0.211`, not the claimed `0.2107` — an input with no
decimal tie, so binary-float and exact decimal rounding agree on 0.211. -/
theorem profile_ema_rounding_counterexample :
    (update_profile
        ⟨fun v => if v = "u1" then some { NEUTRAL_PROFILE with category_food := 123/1000 }
                  else none, 0⟩
        "u1" "food" 1).profiles "u1" =
      some { NEUTRAL_PROFILE with category_food := 211/1000 } ∧
    ema_step_spec (123/1000) 1 = 2107/10000 ∧
    ((211 : ℚ)/1000) ≠ 2107/10000 := by
  have hpr : pyRound (2107/10000 : ℚ) 3 = 211/1000 := by
    unfold pyRound
    rw [show (2107/10000 : ℚ) * 10 ^ 3 = ((210 : ℤ) : ℚ) + 7/10 by push_cast; norm_num,
        roundHalfEven_up 210 (7/10) (by norm_num) (by norm_num)]
    norm_num
  have he : ema_step (123/1000) 1 = 211/1000 := by
    unfold ema_step
    rw [show ((123/1000 : ℚ) * (1 - 1/10) + (if (1 : ℕ) = 0 then (0 : ℚ) else 1) * (1/10))
        = 2107/10000 by norm_num]
    rw [hpr]
    norm_num [min_def, max_def]
  refine ⟨?_, ?_, by norm_num⟩
  · simp [update_profile, he]
  · unfold ema_step_spec
    norm_num [min_def, max_def]

/-- C4 (amended): for every nonempty userId, category among the four profile
categories, and any reward, `update_profile` sets exactly the
`category_<category>` dimension to `clamp(round(old*0.9 + target*0.1, 3))`
(target 1.0 for nonzero reward, else 0.0), leaves every other dimension and
every other user unchanged; away from exact decimal ties the rounded value is
the unique nearest 3-decimal value (within 1/2000), which is what the float
program stores there; from 0.5 one reward-1 update gives 0.55 and one
reward-0 update gives 0.45, and the stored value always lies in [0,1]. -/
theorem update_profile_ema_round_clamp (st : ProfileState) (u : String) (hu : u ≠ "")
    (reward : ℕ) :
    ((update_profile st u "food" reward).profiles u =
        some { get_profile st (some u) with
               category_food := ema_step (get_profile st (some u)).category_food reward }) ∧
    ((update_profile st u "outdoor" reward).profiles u =
        some { get_profile st (some u) with
               category_outdoor := ema_step (get_profile st (some u)).category_outdoor reward }) ∧
    ((update_profile st u "entertainment" reward).profiles u =
        some { get_profile st (some u) with
               category_entertainment :=
                 ema_step (get_profile st (some u)).category_entertainment reward }) ∧
    ((update_profile st u "culture" reward).profiles u =
        some { get_profile st (some u) with
               category_culture := ema_step (get_profile st (some u)).category_culture reward }) ∧
    (∀ category v, v ≠ u →
        (update_profile st u category reward).profiles v = st.profiles v) ∧
    (∀ x : ℚ, ¬ DecimalTie3 x →
        (∃ m : ℤ, pyRound x 3 = (m : ℚ)/1000) ∧ |x - pyRound x 3| < 1/2000) ∧
    ema_step (1/2) 1 = 11/20 ∧
    ema_step (1/2) 0 = 9/20 ∧
    (∀ x r, 0 ≤ ema_step x r ∧ ema_step x r ≤ 1) := by
  refine ⟨?_, ?_, ?_, ?_, ?_, pyRound3_nearest, ?_, ?_, ?_⟩
  · cases hpu : st.profiles u <;> simp [update_profile, get_profile, hu, hpu]
  · cases hpu : st.profiles u <;> simp [update_profile, get_profile, hu, hpu]
  · cases hpu : st.profiles u <;> simp [update_profile, get_profile, hu, hpu]
  · cases hpu : st.profiles u <;> simp [update_profile, get_profile, hu, hpu]
  · intro category v hv
    cases hpu : st.profiles u <;>
      · simp only [update_profile, if_neg hu, hpu]
        split_ifs <;> simp [hv]
  · unfold ema_step
    rw [show ((1/2 : ℚ) * (1 - 1/10) + (if (1 : ℕ) = 0 then (0 : ℚ) else 1) * (1/10))
        = 11/20 by norm_num]
    rw [pyRound_of_mul_eq_int (show (11/20 : ℚ) * 10 ^ 3 = ((550 : ℤ) : ℚ) by norm_num)]
    norm_num [min_def, max_def]
  · unfold ema_step
    rw [show ((1/2 : ℚ) * (1 - 1/10) + (if (0 : ℕ) = 0 then (0 : ℚ) else 1) * (1/10))
        = 9/20 by norm_num]
    rw [pyRound_of_mul_eq_int (show (9/20 : ℚ) * 10 ^ 3 = ((450 : ℤ) : ℚ) by norm_num)]
    norm_num [min_def, max_def]
  · intro x r
    exact ⟨le_max_left 0 _, max_le (by norm_num) (min_le_left 1 _)⟩

/-- C4 witness: the amended EMA theorem at a fresh store and user "alex", and
its nearest-3-decimal conjunct at the non-tie value 0.45. -/
theorem update_profile_ema_round_clamp_witness :
    ((update_profile ⟨fun _ => none, 0⟩ "alex" "food" 1).profiles "alex" =
      some { get_profile ⟨fun _ => none, 0⟩ (some "alex") with
             category_food :=
               ema_step (get_profile ⟨fun _ => none, 0⟩ (some "alex")).category_food 1 }) ∧
    ((∃ m : ℤ, pyRound ((9 : ℚ)/20) 3 = (m : ℚ)/1000) ∧
      |(9 : ℚ)/20 - pyRound ((9 : ℚ)/20) 3| < 1/2000) :=
  ⟨(update_profile_ema_round_clamp ⟨fun _ => none, 0⟩ "alex" (by decide) 1).1,
   (update_profile_ema_round_clamp ⟨fun _ => none, 0⟩ "alex" (by decide) 1).2.2.2.2.2.1
     ((9 : ℚ)/20)
     (by
       rintro ⟨m, hm⟩
       have h2 : ((2 * m : ℤ) : ℚ) = 899 := by push_cast; linarith
       have h3 : (2 * m : ℤ) = 899 := by exact_mod_cast h2
       omega)⟩
open ContextualThompsonSampling in
/-- C2: `update` with reward 1 adds 1 to exactly the addressed arm's α, with
reward 0 to exactly its β, touching no other key; from a fresh Beta(1,1) arm,
k reward-1 updates leave the arm at (k+1, 1), whose posterior mean
α/(α+β) equals (k+1)/(k+2) — `explain` reports it (3-decimal rounded). -/
theorem bandit_update_exact_and_posterior_mean (st : BanditState)
    (place_id category : String) (hour : ℤ) :
    (lookupArm (update st place_id category hour 1).arms
        (place_id, get_context_bucket hour category) =
      some ⟨(get_arm st place_id (get_context_bucket hour category)).1.alpha + 1,
            (get_arm st place_id (get_context_bucket hour category)).1.beta⟩) ∧
    (lookupArm (update st place_id category hour 0).arms
        (place_id, get_context_bucket hour category) =
      some ⟨(get_arm st place_id (get_context_bucket hour category)).1.alpha,
            (get_arm st place_id (get_context_bucket hour category)).1.beta + 1⟩) ∧
    (∀ (r : ℕ) (k : String × String), k ≠ (place_id, get_context_bucket hour category) →
        lookupArm (update st place_id category hour r).arms k = lookupArm st.arms k) ∧
    (lookupArm st.arms (place_id, get_context_bucket hour category) = some ⟨1, 1⟩ →
      ∀ k : ℕ,
        lookupArm (update_iter place_id category hour k st).arms
            (place_id, get_context_bucket hour category) = some ⟨k + 1, 1⟩ ∧
        posterior_mean ⟨k + 1, 1⟩ = ((k : ℚ) + 1) / ((k : ℚ) + 2) ∧
        (explain (update_iter place_id category hour k st) place_id category hour).1.expected_quality =
          pyRound (((k : ℚ) + 1) / ((k : ℚ) + 2)) 3) := by
  refine ⟨?_, ?_, ?_, ?_⟩
  · rw [update_lookup_key]
    simp
  · rw [update_lookup_key]
    norm_num
  · intro r k hk
    exact update_frame st place_id category hour r hk
  · intro hfresh k
    have hmean : ∀ m : ℕ, posterior_mean ⟨m + 1, 1⟩ = ((m : ℚ) + 1) / ((m : ℚ) + 2) := by
      intro m
      unfold posterior_mean
      push_cast
      ring_nf
    have hlook : ∀ m : ℕ,
        lookupArm (update_iter place_id category hour m st).arms
          (place_id, get_context_bucket hour category) = some ⟨m + 1, 1⟩ := by
      intro m
      induction m with
      | zero => exact hfresh
      | succ n ihn =>
          show lookupArm (update (update_iter place_id category hour n st)
              place_id category hour 1).arms _ = _
          rw [update_lookup_key]
          have hga := get_arm_of_some ihn
          rw [hga]
          simp
    refine ⟨hlook k, hmean k, ?_⟩
    have hga := get_arm_of_some (hlook k)
    rw [show (explain (update_iter place_id category hour k st) place_id category hour).1.expected_quality
        = pyRound (posterior_mean
            (get_arm (update_iter place_id category hour k st) place_id
              (get_context_bucket hour category)).1) 3 from rfl, hga, hmean k]

open ContextualThompsonSampling in
/-- C2 witness: starting from a stored Beta(1,1) arm in the morning-food
bucket, two reward-1 updates give the arm (3, 1). -/
theorem bandit_update_exact_and_posterior_mean_witness :
    lookupArm (update_iter "p" "food" 8 2 ⟨[(("p", "morning_food"), ⟨1, 1⟩)], 0⟩).arms
        ("p", get_context_bucket 8 "food") = some ⟨3, 1⟩ :=
  ((bandit_update_exact_and_posterior_mean ⟨[(("p", "morning_food"), ⟨1, 1⟩)], 0⟩
      "p" "food" 8).2.2.2 rfl 2).1

open ContextualThompsonSampling in
/-- C5: an `update` whose hour falls in a different time period leaves the
value returned by `explain` in the original period unchanged (bucket,
observations, mean, uncertainty). -/
theorem explain_unaffected_by_other_bucket_update (st : BanditState)
    (place_id category : String) (h1 h2 : ℤ) (reward : ℕ)
    (hne : time_bucket h1 ≠ time_bucket h2) :
    (explain (update st place_id category h2 reward) place_id category h1).1 =
      (explain st place_id category h1).1 := by
  have hk : (place_id, get_context_bucket h1 category) ≠
      (place_id, get_context_bucket h2 category) := by
    intro h
    exact get_context_bucket_ne category hne (congrArg Prod.snd h)
  have harm : lookupArm (update st place_id category h2 reward).arms
      (place_id, get_context_bucket h1 category) =
        lookupArm st.arms (place_id, get_context_bucket h1 category) :=
    update_frame st place_id category h2 reward hk
  have hfst : (get_arm (update st place_id category h2 reward) place_id
      (get_context_bucket h1 category)).1 =
        (get_arm st place_id (get_context_bucket h1 category)).1 := by
    unfold get_arm
    rw [harm]
    cases lookupArm st.arms (place_id, get_context_bucket h1 category) <;> rfl
  rw [explain_result, explain_result, hfst]

open ContextualThompsonSampling in
/-- C5 witness: a night update (hour 22) does not change the morning (hour 8)
explanation for the same place and category. -/
theorem explain_unaffected_witness :
    (explain (update ⟨[], 0⟩ "p" "food" 22 0) "p" "food" 8).1 =
      (explain (⟨[], 0⟩ : BanditState) "p" "food" 8).1 :=
  explain_unaffected_by_other_bucket_update ⟨[], 0⟩ "p" "food" 8 22 0 (by decide)

open ContextualThompsonSampling in
/-- C8: arms are only ever created at Beta(1,1); under `update`, `explain`,
`sample_scores` and `get_all_stats` every stored arm survives with α, β
(naturals, hence integers) never decreasing — so α ≥ 1 and β ≥ 1 is an
invariant — and no operation removes or decays an arm. -/
theorem bandit_arm_invariant_monotone (st : BanditState) (hinv : ArmTableInv st.arms)
    (place_id category : String) (hour : ℤ) (reward : ℕ)
    (pcs : List (String × String)) (draw : Arm → ℚ) :
    (∀ p b, lookupArm st.arms (p, b) = none →
        (get_arm st p b).1 = ⟨1, 1⟩ ∧
        lookupArm (get_arm st p b).2.arms (p, b) = some ⟨1, 1⟩) ∧
    armsLE st.arms (update st place_id category hour reward).arms ∧
    ArmTableInv (update st place_id category hour reward).arms ∧
    armsLE st.arms (explain st place_id category hour).2.arms ∧
    ArmTableInv (explain st place_id category hour).2.arms ∧
    armsLE st.arms (sample_scores hour draw st pcs).2.arms ∧
    ArmTableInv (sample_scores hour draw st pcs).2.arms ∧
    (get_all_stats st).2 = st := by
  refine ⟨?_, update_armsLE st place_id category hour reward,
    update_inv hinv place_id category hour reward,
    explain_armsLE st place_id category hour,
    explain_inv hinv place_id category hour,
    sample_scores_armsLE hour draw pcs st,
    sample_scores_inv hour draw pcs st hinv, rfl⟩
  intro p b hnone
  have h := get_arm_of_none hnone
  refine ⟨h.1, ?_⟩
  rw [get_arm_lookup, h.1]

open ContextualThompsonSampling in
/-- C8 witness: on the empty table (which satisfies the invariant), reading a
missing arm creates it at Beta(1,1). -/
theorem bandit_arm_invariant_monotone_witness :
    (get_arm ⟨[], 0⟩ "p" "morning_food").1 = ⟨1, 1⟩ ∧
    lookupArm (get_arm ⟨[], 0⟩ "p" "morning_food").2.arms ("p", "morning_food") =
      some ⟨1, 1⟩ :=
  (bandit_arm_invariant_monotone ⟨[], 0⟩
      (by intro k a h; simp [lookupArm] at h) "p" "food" 12 1 [] (fun _ => 0)).1
    "p" "morning_food" rfl

open ContextualThompsonSampling in
/-- C10: querying a never-observed (place, bucket) pair via `explain`, or
sampling it via `sample_scores`, creates the arm at Beta(1,1) as a side effect
without a persistence write, and such an `explain` call reports 0 observations,
expected quality 0.5, and uncertainty "high". -/
theorem fresh_arm_created_on_read (st : BanditState) (place_id category : String)
    (hour : ℤ) (draw : Arm → ℚ)
    (h : lookupArm st.arms (place_id, get_context_bucket hour category) = none) :
    lookupArm (explain st place_id category hour).2.arms
        (place_id, get_context_bucket hour category) = some ⟨1, 1⟩ ∧
    (explain st place_id category hour).2.saveCount = st.saveCount ∧
    (explain st place_id category hour).1.observations_in_context = 0 ∧
    (explain st place_id category hour).1.expected_quality = 1/2 ∧
    (explain st place_id category hour).1.uncertainty = "high" ∧
    lookupArm (sample_scores hour draw st [(place_id, category)]).2.arms
        (place_id, get_context_bucket hour category) = some ⟨1, 1⟩ ∧
    (sample_scores hour draw st [(place_id, category)]).2.saveCount = st.saveCount := by
  have hga := get_arm_of_none h
  have hsample : (sample_scores hour draw st [(place_id, category)]).2 =
      (get_arm st place_id (get_context_bucket hour category)).2 := rfl
  have hq : pyRound (posterior_mean ⟨1, 1⟩) 3 = 1/2 := by
    rw [show posterior_mean ⟨1, 1⟩ = 1/2 by unfold posterior_mean; norm_num]
    rw [pyRound_of_mul_eq_int (show (1/2 : ℚ) * 10 ^ 3 = ((500 : ℤ) : ℚ) by norm_num)]
    norm_num
  refine ⟨?_, ?_, ?_, ?_, ?_, ?_, ?_⟩
  · rw [explain_state, get_arm_lookup, hga.1]
  · rw [explain_state, get_arm_saveCount]
  · rw [show (explain st place_id category hour).1.observations_in_context =
        ((get_arm st place_id (get_context_bucket hour category)).1.alpha : ℤ) +
          ((get_arm st place_id (get_context_bucket hour category)).1.beta : ℤ) - 2 from rfl,
      hga.1]
    norm_num
  · rw [show (explain st place_id category hour).1.expected_quality =
        pyRound (posterior_mean
          (get_arm st place_id (get_context_bucket hour category)).1) 3 from rfl,
      hga.1, hq]
  · rw [explain_result, hga.1]
    norm_num
  · rw [hsample, get_arm_lookup, hga.1]
  · rw [hsample, get_arm_saveCount]

open ContextualThompsonSampling in
/-- C10 witness: the fresh-arm theorem on the empty table at hour 8. -/
theorem fresh_arm_created_on_read_witness :
    lookupArm (explain (⟨[], 0⟩ : BanditState) "p" "food" 8).2.arms
        ("p", get_context_bucket 8 "food") = some ⟨1, 1⟩ ∧
    (explain (⟨[], 0⟩ : BanditState) "p" "food" 8).1.expected_quality = 1/2 :=
  ⟨(fresh_arm_created_on_read ⟨[], 0⟩ "p" "food" 8 (fun _ => 0) rfl).1,
   (fresh_arm_created_on_read ⟨[], 0⟩ "p" "food" 8 (fun _ => 0) rfl).2.2.2.1⟩

/-- Helper: when the event resolves to reward `None`, `/feedback` skips both
learning updates and only runs the `explain` read-back. -/
theorem feedback_none_state (st : SysState) (place_id category : String) (hour : ℤ)
    (event_type : String) (userId : Option String)
    (hr : REWARD_MAP event_type = none) :
    (feedback st place_id category hour event_type userId).2 =
      ⟨(ContextualThompsonSampling.explain st.bandit place_id category hour).2,
        st.userProfiles⟩ := by
  unfold feedback
  rw [hr]

open ContextualThompsonSampling in
/-- C6 counterexample: a `click` event on a never-seen (place, bucket) does
mutate the bandit arm table — the `explain` read-back in the response lazily
creates the queried arm, so the table is no longer the one before the event. -/
theorem click_creates_arm_counterexample :
    (feedback ⟨⟨[], 0⟩, ⟨fun _ => none, 0⟩⟩ "p" "food" 12 "click" none).2.bandit.arms =
      [(("p", "afternoon_food"), ⟨1, 1⟩)] ∧
    (feedback ⟨⟨[], 0⟩, ⟨fun _ => none, 0⟩⟩ "p" "food" 12 "click" none).2.bandit.arms ≠
      ([] : List ((String × String) × Arm)) := by
  refine ⟨rfl, ?_⟩
  intro h
  rw [show (feedback ⟨⟨[], 0⟩, ⟨fun _ => none, 0⟩⟩ "p" "food" 12 "click" none).2.bandit.arms =
      [(("p", "afternoon_food"), (⟨1, 1⟩ : Arm))] from rfl] at h
  exact List.noConfusion h

open ContextualThompsonSampling in
/-- C6 (amended): a `click` event performs no learning mutation — every
existing arm keeps its exact (α, β), every key other than the queried one is
untouched, and no user profile changes even when a userId is present; the only
state effect is that the `explain` read-back may create the queried arm at the
prior Beta(1,1). -/
theorem click_no_learning_mutation (st : SysState) (place_id category : String)
    (hour : ℤ) (userId : Option String) :
    (∀ k a, lookupArm st.bandit.arms k = some a →
        lookupArm (feedback st place_id category hour "click" userId).2.bandit.arms k =
          some a) ∧
    (feedback st place_id category hour "click" userId).2.userProfiles =
      st.userProfiles ∧
    (∀ k, k ≠ (place_id, get_context_bucket hour category) →
        lookupArm (feedback st place_id category hour "click" userId).2.bandit.arms k =
          lookupArm st.bandit.arms k) ∧
    (lookupArm st.bandit.arms (place_id, get_context_bucket hour category) = none →
        lookupArm (feedback st place_id category hour "click" userId).2.bandit.arms
            (place_id, get_context_bucket hour category) = some ⟨1, 1⟩) := by
  have hst := feedback_none_state st place_id category hour "click" userId rfl
  rw [hst]
  refine ⟨?_, rfl, ?_, ?_⟩
  · intro k a ha
    show lookupArm (explain st.bandit place_id category hour).2.arms k = some a
    rw [explain_state]
    exact get_arm_preserves_some place_id (get_context_bucket hour category) ha
  · intro k hk
    show lookupArm (explain st.bandit place_id category hour).2.arms k =
      lookupArm st.bandit.arms k
    rw [explain_state]
    exact get_arm_frame st.bandit place_id (get_context_bucket hour category) hk
  · intro h
    show lookupArm (explain st.bandit place_id category hour).2.arms
        (place_id, get_context_bucket hour category) = some ⟨1, 1⟩
    rw [explain_state, get_arm_lookup, (get_arm_of_none h).1]

open ContextualThompsonSampling in
/-- C6 witness: the amended click theorem evaluated on a state holding one arm
and one profile. -/
theorem click_no_learning_mutation_witness :
    lookupArm
        (feedback ⟨⟨[(("p", "morning_food"), ⟨3, 2⟩)], 0⟩,
            ⟨fun v => if v = "alex" then some NEUTRAL_PROFILE else none, 0⟩⟩
          "p" "food" 12 "click" (some "alex")).2.bandit.arms
        ("p", "morning_food") = some ⟨3, 2⟩ ∧
    (feedback ⟨⟨[(("p", "morning_food"), ⟨3, 2⟩)], 0⟩,
        ⟨fun v => if v = "alex" then some NEUTRAL_PROFILE else none, 0⟩⟩
      "p" "food" 12 "click" (some "alex")).2.userProfiles.profiles "alex" =
      some NEUTRAL_PROFILE :=
  ⟨(click_no_learning_mutation ⟨⟨[(("p", "morning_food"), ⟨3, 2⟩)], 0⟩,
        ⟨fun v => if v = "alex" then some NEUTRAL_PROFILE else none, 0⟩⟩
      "p" "food" 12 (some "alex")).1 ("p", "morning_food") ⟨3, 2⟩ rfl,
   by
    rw [(click_no_learning_mutation ⟨⟨[(("p", "morning_food"), ⟨3, 2⟩)], 0⟩,
          ⟨fun v => if v = "alex" then some NEUTRAL_PROFILE else none, 0⟩⟩
        "p" "food" 12 (some "alex")).2.1]
    simp⟩

open ContextualThompsonSampling in
/-- C7 counterexample: a feedback event with the unknown tag "hover" is
ignored, not resolved as reward 0: the queried fresh arm ends at the prior
Beta(1,1) — its β is not incremented to 2 — and the resolved reward is `None`. -/
theorem unknown_event_ignored_counterexample :
    (feedback ⟨⟨[], 0⟩, ⟨fun _ => none, 0⟩⟩ "p" "food" 12 "hover" none).1.reward = none ∧
    lookupArm
        (feedback ⟨⟨[], 0⟩, ⟨fun _ => none, 0⟩⟩ "p" "food" 12 "hover" none).2.bandit.arms
        ("p", "afternoon_food") = some ⟨1, 1⟩ ∧
    some (⟨1, 1⟩ : Arm) ≠ some (⟨1, 2⟩ : Arm) := by
  refine ⟨rfl, rfl, ?_⟩
  intro h
  exact absurd (Option.some.inj h) (by decide)

open ContextualThompsonSampling in
/-- C7 (amended): every event whose tag is not one of the seven known tags
resolves to reward `None` and is ignored by the learning loop: the bandit
update is skipped (no arm's α or β changes; the `explain` read-back may only
create the queried arm at Beta(1,1)) and no profile changes. -/
theorem unknown_event_ignored (st : SysState) (place_id category : String) (hour : ℤ)
    (event_type : String) (userId : Option String)
    (h : event_type ∉ (["navigate", "like", "save", "click", "impression", "dismiss",
        "dislike"] : List String)) :
    REWARD_MAP event_type = none ∧
    (∀ k a, lookupArm st.bandit.arms k = some a →
        lookupArm (feedback st place_id category hour event_type userId).2.bandit.arms k =
          some a) ∧
    (feedback st place_id category hour event_type userId).2.userProfiles =
      st.userProfiles ∧
    (lookupArm st.bandit.arms (place_id, get_context_bucket hour category) = none →
        lookupArm (feedback st place_id category hour event_type userId).2.bandit.arms
            (place_id, get_context_bucket hour category) = some ⟨1, 1⟩) := by
  simp only [List.mem_cons, not_or] at h
  obtain ⟨h1, h2, h3, h4, h5, h6, h7, _⟩ := h
  have hr : REWARD_MAP event_type = none := by
    unfold REWARD_MAP
    simp [h1, h2, h3, h4, h5, h6, h7]
  have hst := feedback_none_state st place_id category hour event_type userId hr
  rw [hst]
  refine ⟨hr, ?_, rfl, ?_⟩
  · intro k a ha
    show lookupArm (explain st.bandit place_id category hour).2.arms k = some a
    rw [explain_state]
    exact get_arm_preserves_some place_id (get_context_bucket hour category) ha
  · intro hnone
    show lookupArm (explain st.bandit place_id category hour).2.arms
        (place_id, get_context_bucket hour category) = some ⟨1, 1⟩
    rw [explain_state, get_arm_lookup, (get_arm_of_none hnone).1]

open ContextualThompsonSampling in
/-- C7 witness: the amended theorem at the unknown tag "hover" on a state with
one stored arm, which keeps its exact (α, β). -/
theorem unknown_event_ignored_witness :
    REWARD_MAP "hover" = none ∧
    lookupArm
        (feedback ⟨⟨[(("p", "afternoon_food"), ⟨4, 7⟩)], 0⟩, ⟨fun _ => none, 0⟩⟩
          "p" "food" 12 "hover" none).2.bandit.arms
        ("p", "afternoon_food") = some ⟨4, 7⟩ :=
  ⟨(unknown_event_ignored ⟨⟨[(("p", "afternoon_food"), ⟨4, 7⟩)], 0⟩, ⟨fun _ => none, 0⟩⟩
      "p" "food" 12 "hover" none (by decide)).1,
   (unknown_event_ignored ⟨⟨[(("p", "afternoon_food"), ⟨4, 7⟩)], 0⟩, ⟨fun _ => none, 0⟩⟩
      "p" "food" 12 "hover" none (by decide)).2.1 ("p", "afternoon_food") ⟨4, 7⟩ rfl⟩

/-- C1 witness: the blend-and-sort contract instantiated on a concrete
two-candidate request. -/
theorem recommend_blend_round_and_stable_sort_witness :
    (rankCandidates [((4 : ℚ)/5, (1 : ℚ)/5), ((1 : ℚ)/2, (1 : ℚ)/2)]).Perm
      (blendTag 0 [((4 : ℚ)/5, (1 : ℚ)/5), ((1 : ℚ)/2, (1 : ℚ)/2)]) :=
  (recommend_blend_round_and_stable_sort.2
    [((4 : ℚ)/5, (1 : ℚ)/5), ((1 : ℚ)/2, (1 : ℚ)/2)]).2.1
